import Mathlib

/-!
Verification of the go-tftp packet codec (package packets, with the error
taxonomy from package errors). Go strings and byte slices are both modelled
as `List Nat` whose entries are byte values; `uint16` fields are `Nat`
values below 65536. Fallible Go functions returning `(T, error)` are
modelled as `Except GoError T`.
-/

namespace GoTftp

/-- Byte sequence of a Go string literal (one byte per ASCII character). -/
def strB (s : String) : List Nat := s.data.map Char.toNat

/-- The error taxonomy of the errors package, plus a `generic` case for
plain errors produced by fmt.Errorf. -/
inductive GoError where
  | ErrorFileNotFound (File : List Nat)
  | ErrorAccessViolation
  | ErrorDiskFull
  | ErrorIllegalOperation (Message : List Nat)
  | ErrorUnknownTransferID (TransferID : List Nat)
  | ErrorFileExists (File : List Nat)
  | ErrorNoSuchUser (User : List Nat)
  | generic (msg : List Nat)
deriving DecidableEq, Repr

/-- The Error() method of each error kind (fmt.Sprintf with a fixed format
string); a generic error carries its message verbatim. -/
def GoError.Error : GoError → List Nat
  | .ErrorFileNotFound f => strB (r"Error File Not Found - ") ++ f
  | .ErrorAccessViolation => strB (r"Error Access Violation")
  | .ErrorDiskFull => strB (r"Error Disk Full")
  | .ErrorIllegalOperation m => strB (r"Error Illegal Operation -  ") ++ m
  | .ErrorUnknownTransferID t => strB (r"Error Unknown Transfer ID - ") ++ t
  | .ErrorFileExists f => strB (r"Error File Exists: ") ++ f
  | .ErrorNoSuchUser u => strB (r"Error No Such User: ") ++ u
  | .generic m => m

def ReadRequestPacketOpcode : Nat := 1

def WriteRequestPacketOpcode : Nat := 2

def DataPacketOpcode : Nat := 3

def AckPacketOpcode : Nat := 4

def ErrorPacketOpcode : Nat := 5

structure WriteRequestPacket where
  Filename : List Nat
  Mode : List Nat
deriving DecidableEq, Repr

structure ReadRequestPacket where
  Filename : List Nat
  Mode : List Nat
deriving DecidableEq, Repr

structure DataPacket where
  BlockNumber : Nat
  Data : List Nat
deriving DecidableEq, Repr

structure ErrorPacket where
  ErrorCode : Nat
  ErrorMessage : List Nat
deriving DecidableEq, Repr

structure AckPacket where
  BlockNumber : Nat
deriving DecidableEq, Repr

/-- Big-endian byte pair written by binary.Write for a uint16 value
(with the uint16 truncation made explicit). -/
def toBytes16 (n : Nat) : List Nat := [n / 256 % 256, n % 256]

/-- binary.BigEndian.Uint16: the first two bytes, big endian. Callers check
the length first (Go panics below two bytes), so the default is unreachable. -/
def uint16BE : List Nat → Nat
  | b0 :: b1 :: _ => b0 * 256 + b1
  | _ => 0

/-- bytes.Buffer.WriteString / Write: appends the bytes and returns the
count written; per the Go documentation the returned error is always nil,
so only the count is modelled. -/
def bufWriteString (buffer s : List Nat) : List Nat × Nat := (buffer ++ s, s.length)

/-- bytes.Buffer.ReadString(delim): the bytes read up to and including the
first delimiter, the remaining bytes, and whether io.EOF was hit (the
delimiter never occurred; the data read is then everything that was left). -/
def readString (l : List Nat) (delim : Nat) : List Nat × List Nat × Bool :=
  match l with
  | [] => ([], [], true)
  | b :: rest =>
    if b = delim then ([b], rest, false)
    else
      let r := readString rest delim
      (b :: r.1, r.2.1, r.2.2)

/-- Spec-side view of NUL-terminated string reading: the bytes before the
first 0x00 and the bytes after it, or none when no 0x00 occurs. -/
def splitAtNul : List Nat → Option (List Nat × List Nat)
  | [] => none
  | b :: rest =>
    if b = 0 then some ([], rest)
    else
      match splitAtNul rest with
      | none => none
      | some pp => some (b :: pp.1, pp.2)

/-- Whether an Except value is a success. -/
def isOk {ε α : Type} : Except ε α → Bool
  | Except.ok _ => true
  | Except.error _ => false

def WriteRequestPacket.Encode (w : WriteRequestPacket) : Except GoError (List Nat) :=
  let buffer0 := toBytes16 WriteRequestPacketOpcode
  let r1 := bufWriteString buffer0 w.Filename
  if r1.2 ≠ w.Filename.length then
    .error (.generic (strB (r"Length of filename did not match that written to buffer")))
  else
    let buffer1 := r1.1 ++ [0x00]
    let r2 := bufWriteString buffer1 w.Mode
    if r2.2 ≠ w.Mode.length then
      .error (.generic (strB (r"Length of mode did not match that written to buffer")))
    else
      .ok (r2.1 ++ [0x00])

def ReadRequestPacket.Encode (rq : ReadRequestPacket) : Except GoError (List Nat) :=
  let buffer0 := toBytes16 ReadRequestPacketOpcode
  let r1 := bufWriteString buffer0 rq.Filename
  if r1.2 ≠ rq.Filename.length then
    .error (.generic (strB (r"Length of filename did not match that written to buffer")))
  else
    let buffer1 := r1.1 ++ [0x00]
    let r2 := bufWriteString buffer1 rq.Mode
    if r2.2 ≠ rq.Mode.length then
      .error (.generic (strB (r"Length of mode did not match that written to buffer")))
    else
      .ok (r2.1 ++ [0x00])

def DataPacket.Encode (d : DataPacket) : Except GoError (List Nat) :=
  let buffer0 := toBytes16 DataPacketOpcode ++ toBytes16 d.BlockNumber
  let r1 := bufWriteString buffer0 d.Data
  if r1.2 ≠ d.Data.length then
    .error (.generic (strB (r"Length of data did not match that written to buffer")))
  else
    .ok r1.1

def AckPacket.Encode (a : AckPacket) : Except GoError (List Nat) :=
  .ok (toBytes16 AckPacketOpcode ++ toBytes16 a.BlockNumber)

def ErrorPacket.Encode (e : ErrorPacket) : Except GoError (List Nat) :=
  -- source condition: e.ErrorCode > 7 || e.ErrorCode < 0; the second
  -- disjunct is vacuous for a uint16
  if e.ErrorCode > 7 then
    .error (.generic (strB (r"Invalid Error Code")))
  else
    let buffer0 := toBytes16 ErrorPacketOpcode ++ toBytes16 e.ErrorCode
    let r1 := bufWriteString buffer0 e.ErrorMessage
    if r1.2 ≠ e.ErrorMessage.length then
      .error (.generic (strB (r"Length of error message does not match that written to buffer")))
    else
      .ok (r1.1 ++ [0x00])

inductive Packet where
  | readRequest (p : ReadRequestPacket)
  | writeRequest (p : WriteRequestPacket)
  | data (p : DataPacket)
  | ack (p : AckPacket)
  | error (p : ErrorPacket)
deriving DecidableEq, Repr

/-- The Encode method of the Packet interface, dispatching to the variant. -/
def Packet.Encode : Packet → Except GoError (List Nat)
  | .readRequest p => p.Encode
  | .writeRequest p => p.Encode
  | .data p => p.Encode
  | .ack p => p.Encode
  | .error p => p.Encode

def decodeErrorPacket (errorData : List Nat) : Except GoError ErrorPacket :=
  if errorData.length < 5 then
    .error (.ErrorIllegalOperation (strB (r"Invalid Error packet length - must be 5 bytes")))
  else
    let errorCode := uint16BE (errorData.drop 2)
    -- source condition: errorCode > 8 || errorCode < 0; the second
    -- disjunct is vacuous for a uint16
    if errorCode > 8 then
      .error (.ErrorIllegalOperation (strB (r"Invalid error code - must be between 0 and 7")))
    else
      -- source builds the buffer from the whole of errorData, not from
      -- errorData[4:], and keeps the terminator in the message
      let rs := readString errorData 0x00
      if rs.2.2 then
        .error (.ErrorIllegalOperation (strB (r"Error message not 0x0 terminated")))
      else
        .ok ⟨errorCode, rs.1⟩

def decodeAckPacket (ackData : List Nat) : Except GoError AckPacket :=
  if ackData.length ≠ 4 then
    .error (.ErrorIllegalOperation (strB (r"Invalid ACK packet length - must be 4 bytes")))
  else
    .ok ⟨uint16BE (ackData.drop 2)⟩

def decodeDataPacket (dataByte : List Nat) : Except GoError DataPacket :=
  if dataByte.length < 4 then
    .error (.ErrorIllegalOperation (strB (r"Data packet too short")))
  else
    .ok ⟨uint16BE (dataByte.drop 2), dataByte.drop 4⟩

def decodeRequest (reqData : List Nat) : Except GoError (List Nat × List Nat) :=
  if reqData.length < 6 then
    .error (.ErrorIllegalOperation (strB (r"RRQ not long enough")))
  else
    let r1 := readString (reqData.drop 2) 0x00
    if r1.2.2 then
      .error (.ErrorIllegalOperation (strB (r"Non 0x0 terminated Filename")))
    else if r1.1.length < 2 then
      .error (.ErrorIllegalOperation (strB (r"Blank Filename")))
    else
      -- trimming the termination byte
      let filename := r1.1.dropLast
      let r2 := readString r1.2.1 0x00
      if r2.2.2 then
        .error (.ErrorIllegalOperation (strB (r"Non 0x0 terminated Mode")))
      else if r2.1.length < 2 then
        .error (.ErrorIllegalOperation (strB (r"Blank Mode")))
      else
        .ok (filename, r2.1.dropLast)

def decodeWriteRequestPacket (readData : List Nat) : Except GoError WriteRequestPacket :=
  (decodeRequest readData).map fun fm => ⟨fm.1, fm.2⟩

def decodeReadRequestPacket (readData : List Nat) : Except GoError ReadRequestPacket :=
  (decodeRequest readData).map fun fm => ⟨fm.1, fm.2⟩

def Decode (packetByte : List Nat) : Except GoError Packet :=
  if packetByte.length < 2 then
    -- source uses fmt.Errorf here, not errors.ErrorIllegalOperation
    .error (.generic (strB (r"No data in packet")))
  else
    let opcode := uint16BE packetByte
    if opcode = ReadRequestPacketOpcode then
      (decodeReadRequestPacket packetByte).map Packet.readRequest
    else if opcode = WriteRequestPacketOpcode then
      (decodeWriteRequestPacket packetByte).map Packet.writeRequest
    else if opcode = DataPacketOpcode then
      (decodeDataPacket packetByte).map Packet.data
    else if opcode = AckPacketOpcode then
      (decodeAckPacket packetByte).map Packet.ack
    else if opcode = ErrorPacketOpcode then
      (decodeErrorPacket packetByte).map Packet.error
    else
      .error (.ErrorIllegalOperation
        (strB (r"An illegal operation was attempted: Unknown Opcode - ") ++ strB (toString opcode)))

/-- ErrorToPacket from the source: the seven kinds map to codes 1 through 7,
anything else to code 0, always carrying the Error() message. -/
def ErrorToPacket (err : GoError) : ErrorPacket :=
  match err with
  | .ErrorFileNotFound _ => ⟨1, err.Error⟩
  | .ErrorAccessViolation => ⟨2, err.Error⟩
  | .ErrorDiskFull => ⟨3, err.Error⟩
  | .ErrorIllegalOperation _ => ⟨4, err.Error⟩
  | .ErrorUnknownTransferID _ => ⟨5, err.Error⟩
  | .ErrorFileExists _ => ⟨6, err.Error⟩
  | .ErrorNoSuchUser _ => ⟨7, err.Error⟩
  | .generic _ => ⟨0, err.Error⟩

lemma readString_spec (l : List Nat) :
    readString l 0 =
      match splitAtNul l with
      | some pp => (pp.1 ++ [0], pp.2, false)
      | none => (l, [], true) := by
  induction l with
  | nil => rfl
  | cons b rest ih =>
    unfold readString splitAtNul
    by_cases hb : b = 0
    · subst hb; simp
    · simp only [if_neg hb, ih]
      cases hs : splitAtNul rest with
      | none => simp
      | some pp => simp

lemma splitAtNul_append {l pre post : List Nat} (s : List Nat)
    (h : splitAtNul l = some (pre, post)) :
    splitAtNul (l ++ s) = some (pre, post ++ s) := by
  induction l generalizing pre post with
  | nil => simp [splitAtNul] at h
  | cons b rest ih =>
    by_cases hb : b = 0
    · subst hb
      simp [splitAtNul] at h ⊢
      obtain ⟨rfl, rfl⟩ := h
      simp
    · rw [List.cons_append]
      unfold splitAtNul at h ⊢
      rw [if_neg hb] at h ⊢
      cases hs : splitAtNul rest with
      | none => rw [hs] at h; exact absurd h (by simp)
      | some pp =>
        rw [hs] at h
        rw [ih hs]
        simp only [Option.some.injEq, Prod.mk.injEq] at h ⊢
        obtain ⟨h1, h2⟩ := h
        exact ⟨h1, by rw [h2]⟩

lemma uint16BE_append {b : List Nat} (h : 2 ≤ b.length) (s : List Nat) :
    uint16BE (b ++ s) = uint16BE b := by
  cases b with
  | nil => simp at h
  | cons b0 t =>
    cases t with
    | nil => simp at h
    | cons b1 t2 => rfl

lemma map_eq_ok {ε α β : Type} {f : α → β} {x : Except ε α} {b : β}
    (h : x.map f = .ok b) : ∃ a, x = .ok a ∧ f a = b := by
  cases x with
  | ok a => exact ⟨a, rfl, by simpa [Except.map] using h⟩
  | error e => simp [Except.map] at h

lemma dropLast_append_single (l : List Nat) (a : Nat) : (l ++ [a]).dropLast = l := by
  simp

lemma decodeRequest_view (reqData : List Nat) :
    decodeRequest reqData =
      if reqData.length < 6 then
        .error (.ErrorIllegalOperation (strB (r"RRQ not long enough")))
      else
        match splitAtNul (reqData.drop 2) with
        | none => .error (.ErrorIllegalOperation (strB (r"Non 0x0 terminated Filename")))
        | some fp =>
          if fp.1 = [] then
            .error (.ErrorIllegalOperation (strB (r"Blank Filename")))
          else
            match splitAtNul fp.2 with
            | none => .error (.ErrorIllegalOperation (strB (r"Non 0x0 terminated Mode")))
            | some mp =>
              if mp.1 = [] then
                .error (.ErrorIllegalOperation (strB (r"Blank Mode")))
              else
                .ok (fp.1, mp.1) := by
  unfold decodeRequest
  by_cases h6 : reqData.length < 6
  · simp [h6]
  · simp only [if_neg h6, readString_spec]
    cases h1 : splitAtNul (reqData.drop 2) with
    | none => simp
    | some fp =>
      simp only []
      by_cases hf : fp.1 = []
      · simp [hf]
      · have hf0 : fp.1.length ≠ 0 := fun hh => hf (List.length_eq_zero.mp hh)
        have hlen : ¬ (fp.1 ++ [0]).length < 2 := by simp; omega
        simp only [if_neg hf, if_neg hlen, dropLast_append_single]
        cases h2 : splitAtNul fp.2 with
        | none => simp
        | some mp =>
          simp only []
          by_cases hm : mp.1 = []
          · simp [hm]
          · have hm0 : mp.1.length ≠ 0 := fun hh => hm (List.length_eq_zero.mp hh)
            have hlen2 : ¬ (mp.1 ++ [0]).length < 2 := by simp; omega
            simp [if_neg hm, if_neg hlen2, dropLast_append_single]
            omega

lemma decodeRequest_append {b : List Nat} {fm : List Nat × List Nat} (s : List Nat)
    (h : decodeRequest b = .ok fm) : decodeRequest (b ++ s) = .ok fm := by
  rw [decodeRequest_view] at h
  rw [decodeRequest_view]
  by_cases h6 : b.length < 6
  · rw [if_pos h6] at h; cases h
  · rw [if_neg h6] at h
    have h6s : ¬ (b ++ s).length < 6 := by simp; omega
    rw [if_neg h6s]
    have hdrop : (b ++ s).drop 2 = b.drop 2 ++ s := by
      rw [List.drop_append_eq_append_drop]
      have : 2 - b.length = 0 := by omega
      rw [this, List.drop_zero]
    rw [hdrop]
    cases h1 : splitAtNul (b.drop 2) with
    | none => rw [h1] at h; cases h
    | some fp =>
      rw [h1] at h
      rw [splitAtNul_append s h1]
      simp only [] at h ⊢
      by_cases hf : fp.1 = []
      · rw [if_pos hf] at h; cases h
      · rw [if_neg hf] at h
        rw [if_neg hf]
        cases h2 : splitAtNul fp.2 with
        | none => rw [h2] at h; cases h
        | some mp =>
          rw [h2] at h
          rw [splitAtNul_append s h2]
          simp only [] at h ⊢
          by_cases hm : mp.1 = []
          · rw [if_pos hm] at h; cases h
          · rw [if_neg hm] at h
            rw [if_neg hm]
            exact h

lemma decode_error_key (c : Nat) (rest : List Nat) (hc : c < 65536) (hr : rest ≠ []) :
    Decode ([0, 5] ++ toBytes16 c ++ rest) =
      if 8 < c then
        .error (.ErrorIllegalOperation (strB (r"Invalid error code - must be between 0 and 7")))
      else
        .ok (.error ⟨c, [0]⟩) := by
  have hB : ([0, 5] ++ toBytes16 c ++ rest) = 0 :: 5 :: c / 256 % 256 :: c % 256 :: rest := by
    simp [toBytes16]
  rw [hB]
  have hrl : 0 < rest.length := List.length_pos.mpr hr
  unfold Decode
  have hlen : ¬ ((0 : Nat) :: 5 :: c / 256 % 256 :: c % 256 :: rest).length < 2 := by
    simp
  rw [if_neg hlen]
  have hop : uint16BE ((0 : Nat) :: 5 :: c / 256 % 256 :: c % 256 :: rest) = 5 := by
    show 0 * 256 + 5 = 5
    omega
  simp only [hop, ReadRequestPacketOpcode, WriteRequestPacketOpcode, DataPacketOpcode,
    AckPacketOpcode, ErrorPacketOpcode]
  norm_num
  unfold decodeErrorPacket
  have hlen5 : ¬ ((0 : Nat) :: 5 :: c / 256 % 256 :: c % 256 :: rest).length < 5 := by
    simp
    omega
  rw [if_neg hlen5]
  have hcode : uint16BE (((0 : Nat) :: 5 :: c / 256 % 256 :: c % 256 :: rest).drop 2) = c := by
    show c / 256 % 256 * 256 + c % 256 = c
    omega
  simp only [hcode]
  by_cases h8 : 8 < c
  · rw [if_pos h8, if_pos h8]
    simp [Except.map]
  · rw [if_neg h8, if_neg h8]
    simp [readString, Except.map]

/-- C1: the round-trip property fails on the Error variant. Encoding the
Error packet with code 1 and message Test produces the expected bytes, but
decoding those bytes yields the message consisting of the single byte 0:
decodeErrorPacket reads its NUL-terminated message from offset 0 of the
buffer, where the high byte of the opcode is already 0x00, and it keeps the
terminator, so the decoded packet differs from the encoded one. -/
theorem error_roundtrip_breaks :
    ErrorPacket.Encode ⟨1, strB (r"Test")⟩ = .ok [0, 5, 0, 1, 84, 101, 115, 116, 0] ∧
    Decode [0, 5, 0, 1, 84, 101, 115, 116, 0] = .ok (.error ⟨1, [0]⟩) ∧
    (⟨1, [0]⟩ : ErrorPacket) ≠ ⟨1, strB (r"Test")⟩ :=
  ⟨rfl, rfl, by decide⟩

/-- C2: decoding the nine bytes 00 05 00 01 54 65 73 74 00 does not produce
the Error packet with message Test: the code returns the message consisting
of the single byte 0, because the message is read from offset 0 of the
buffer rather than offset 4 and the terminator is not removed. -/
theorem decode_error_scenario_bug :
    Decode [0, 5, 0, 1, 84, 101, 115, 116, 0] = .ok (.error ⟨1, [0]⟩) ∧
    ([0] : List Nat) ≠ strB (r"Test") :=
  ⟨rfl, by decide⟩

/-- C3: on buffers of length 0 or 1, Decode fails, but with a plain
unclassified error (the source uses fmt.Errorf, not the Illegal Operation
kind), so ErrorToPacket maps the failure to wire code 0; an Illegal
Operation error would have mapped to wire code 4. -/
theorem decode_short_buffer_unclassified :
    Decode [] = .error (.generic (strB (r"No data in packet"))) ∧
    (∀ b : Nat, Decode [b] = .error (.generic (strB (r"No data in packet")))) ∧
    (ErrorToPacket (.generic (strB (r"No data in packet")))).ErrorCode = 0 ∧
    (∀ m : List Nat, (ErrorToPacket (.ErrorIllegalOperation m)).ErrorCode = 4) :=
  ⟨rfl, fun _ => rfl, rfl, fun _ => rfl⟩

/-- C4: Error-packet encoding succeeds exactly for ErrorCode at most 7,
while decoding an opcode-5 buffer succeeds exactly for ErrorCode at most 8
and fails with the Illegal Operation invalid-error-code message above 8;
hence code 8 decodes successfully but cannot be encoded. -/
theorem errorCode_range_boundary :
    (∀ (c : Nat) (msg : List Nat), c < 65536 →
       (isOk (ErrorPacket.Encode ⟨c, msg⟩) = true ↔ c ≤ 7)) ∧
    (∀ (c : Nat) (rest : List Nat), c < 65536 → rest ≠ [] →
       (isOk (Decode ([0, 5] ++ toBytes16 c ++ rest)) = true ↔ c ≤ 8) ∧
       (8 < c → Decode ([0, 5] ++ toBytes16 c ++ rest) =
          .error (.ErrorIllegalOperation
            (strB (r"Invalid error code - must be between 0 and 7"))))) ∧
    (Decode [0, 5, 0, 8, 0] = .ok (.error ⟨8, [0]⟩) ∧
       ErrorPacket.Encode ⟨8, [0]⟩ = .error (.generic (strB (r"Invalid Error Code")))) := by
  refine ⟨?_, ?_, rfl, rfl⟩
  · intro c msg hc
    unfold ErrorPacket.Encode
    by_cases h7 : 7 < c
    · simp [h7, isOk]
    · simp [h7, isOk, bufWriteString]
      omega
  · intro c rest hc hr
    rw [decode_error_key c rest hc hr]
    constructor
    · by_cases h8 : 8 < c
      · simp [h8, isOk]
      · simp [h8, isOk]
        omega
    · intro h8
      rw [if_pos h8]

/-- C4 witness: code 9 at the decoder is rejected and code 7 at the encoder
is accepted, by applying the range theorem at those concrete inputs. -/
theorem errorCode_range_boundary_witness :
    ((9 : Nat) < 65536 ∧ ([0] : List Nat) ≠ [] ∧ (7 : Nat) < 65536) ∧
    isOk (Decode ([0, 5] ++ toBytes16 9 ++ [0])) = false ∧
    isOk (ErrorPacket.Encode ⟨7, [84]⟩) = true := by
  refine ⟨⟨by omega, by simp, by omega⟩, ?_, ?_⟩
  · have h := (errorCode_range_boundary.2.1 9 [0] (by omega) (by simp)).1
    have h9 : ¬ ((9 : Nat) ≤ 8) := by omega
    have hne : ¬ isOk (Decode ([0, 5] ++ toBytes16 9 ++ [0])) = true :=
      fun hh => h9 (h.mp hh)
    simpa using hne
  · exact (errorCode_range_boundary.1 7 [84] (by omega)).mpr (by omega)

/-- C5: a buffer of length at least 5 with opcode 5, an accepted error code,
and no 0x00 byte at offset 4 or later is not rejected: decoding succeeds
with the single-byte message 0, because the message scan starts at offset 0
where the high byte of the opcode is 0x00, so the unterminated-message
branch never fires for opcode-5 buffers. -/
theorem unterminated_message_not_rejected :
    5 ≤ ([0, 5, 0, 1, 84, 101, 115, 116] : List Nat).length ∧
    uint16BE [0, 5, 0, 1, 84, 101, 115, 116] = ErrorPacketOpcode ∧
    (0 : Nat) ∉ ([0, 5, 0, 1, 84, 101, 115, 116] : List Nat).drop 4 ∧
    uint16BE (([0, 5, 0, 1, 84, 101, 115, 116] : List Nat).drop 2) ≤ 8 ∧
    Decode [0, 5, 0, 1, 84, 101, 115, 116] = .ok (.error ⟨1, [0]⟩) :=
  ⟨by decide, by decide, by decide, by decide, rfl⟩

/-- C6: ErrorToPacket is total: each of the seven classified kinds maps to
its wire code 1 through 7 with the formatted message of that kind, and any
other error maps to code 0 with its message preserved verbatim. -/
theorem errorToPacket_total :
    (∀ f, ErrorToPacket (.ErrorFileNotFound f) =
       ⟨1, strB (r"Error File Not Found - ") ++ f⟩) ∧
    ErrorToPacket .ErrorAccessViolation = ⟨2, strB (r"Error Access Violation")⟩ ∧
    ErrorToPacket .ErrorDiskFull = ⟨3, strB (r"Error Disk Full")⟩ ∧
    (∀ m, ErrorToPacket (.ErrorIllegalOperation m) =
       ⟨4, strB (r"Error Illegal Operation -  ") ++ m⟩) ∧
    (∀ t, ErrorToPacket (.ErrorUnknownTransferID t) =
       ⟨5, strB (r"Error Unknown Transfer ID - ") ++ t⟩) ∧
    (∀ f, ErrorToPacket (.ErrorFileExists f) = ⟨6, strB (r"Error File Exists: ") ++ f⟩) ∧
    (∀ u, ErrorToPacket (.ErrorNoSuchUser u) = ⟨7, strB (r"Error No Such User: ") ++ u⟩) ∧
    (∀ m, ErrorToPacket (.generic m) = ⟨0, m⟩) :=
  ⟨fun _ => rfl, rfl, rfl, fun _ => rfl, fun _ => rfl, fun _ => rfl, fun _ => rfl, fun _ => rfl⟩

/-- C7: request decoding fails with an Illegal Operation error exactly when
the buffer is shorter than 6 bytes, when the filename or the mode lacks its
0x00 terminator, or when the filename or the mode is empty after removing
the terminator; otherwise it returns the two NUL-terminated strings after
the opcode, terminators removed, as filename then mode. -/
theorem decodeRequest_characterization (reqData : List Nat) :
    decodeRequest reqData =
      if reqData.length < 6 then
        .error (.ErrorIllegalOperation (strB (r"RRQ not long enough")))
      else
        match splitAtNul (reqData.drop 2) with
        | none => .error (.ErrorIllegalOperation (strB (r"Non 0x0 terminated Filename")))
        | some fp =>
          if fp.1 = [] then
            .error (.ErrorIllegalOperation (strB (r"Blank Filename")))
          else
            match splitAtNul fp.2 with
            | none => .error (.ErrorIllegalOperation (strB (r"Non 0x0 terminated Mode")))
            | some mp =>
              if mp.1 = [] then
                .error (.ErrorIllegalOperation (strB (r"Blank Mode")))
              else
                .ok (fp.1, mp.1) :=
  decodeRequest_view reqData

/-- C8: trailing bytes are ignored by request decoding: when a buffer
decodes to a ReadRequest or WriteRequest, the buffer followed by any extra
bytes decodes to the very same packet. -/
theorem decode_request_ignores_trailing (b s : List Nat) (p : ReadRequestPacket)
    (q : WriteRequestPacket) :
    (Decode b = .ok (.readRequest p) → Decode (b ++ s) = .ok (.readRequest p)) ∧
    (Decode b = .ok (.writeRequest q) → Decode (b ++ s) = .ok (.writeRequest q)) := by
  constructor
  · intro h
    unfold Decode at h ⊢
    by_cases hl : b.length < 2
    · rw [if_pos hl] at h; cases h
    · rw [if_neg hl] at h
      have hl2 : ¬ (b ++ s).length < 2 := by simp; omega
      rw [if_neg hl2]
      have hop : uint16BE (b ++ s) = uint16BE b := uint16BE_append (by omega) s
      rw [hop]
      by_cases h1 : uint16BE b = ReadRequestPacketOpcode
      · rw [if_pos h1] at h
        rw [if_pos h1]
        unfold decodeReadRequestPacket at h ⊢
        obtain ⟨rp, hrp, hcon⟩ := map_eq_ok h
        obtain ⟨fm, hfm, hmk⟩ := map_eq_ok hrp
        rw [decodeRequest_append s hfm]
        simp [Except.map, hmk, hcon]
      · rw [if_neg h1] at h
        by_cases h2 : uint16BE b = WriteRequestPacketOpcode
        · rw [if_pos h2] at h
          obtain ⟨a, -, hcon⟩ := map_eq_ok h
          cases hcon
        · rw [if_neg h2] at h
          by_cases h3 : uint16BE b = DataPacketOpcode
          · rw [if_pos h3] at h
            obtain ⟨a, -, hcon⟩ := map_eq_ok h
            cases hcon
          · rw [if_neg h3] at h
            by_cases h4 : uint16BE b = AckPacketOpcode
            · rw [if_pos h4] at h
              obtain ⟨a, -, hcon⟩ := map_eq_ok h
              cases hcon
            · rw [if_neg h4] at h
              by_cases h5 : uint16BE b = ErrorPacketOpcode
              · rw [if_pos h5] at h
                obtain ⟨a, -, hcon⟩ := map_eq_ok h
                cases hcon
              · rw [if_neg h5] at h
                cases h
  · intro h
    unfold Decode at h ⊢
    by_cases hl : b.length < 2
    · rw [if_pos hl] at h; cases h
    · rw [if_neg hl] at h
      have hl2 : ¬ (b ++ s).length < 2 := by simp; omega
      rw [if_neg hl2]
      have hop : uint16BE (b ++ s) = uint16BE b := uint16BE_append (by omega) s
      rw [hop]
      by_cases h1 : uint16BE b = ReadRequestPacketOpcode
      · rw [if_pos h1] at h
        obtain ⟨a, -, hcon⟩ := map_eq_ok h
        cases hcon
      · rw [if_neg h1] at h
        rw [if_neg h1]
        by_cases h2 : uint16BE b = WriteRequestPacketOpcode
        · rw [if_pos h2] at h
          rw [if_pos h2]
          unfold decodeWriteRequestPacket at h ⊢
          obtain ⟨rp, hrp, hcon⟩ := map_eq_ok h
          obtain ⟨fm, hfm, hmk⟩ := map_eq_ok hrp
          rw [decodeRequest_append s hfm]
          simp [Except.map, hmk, hcon]
        · rw [if_neg h2] at h
          by_cases h3 : uint16BE b = DataPacketOpcode
          · rw [if_pos h3] at h
            obtain ⟨a, -, hcon⟩ := map_eq_ok h
            cases hcon
          · rw [if_neg h3] at h
            by_cases h4 : uint16BE b = AckPacketOpcode
            · rw [if_pos h4] at h
              obtain ⟨a, -, hcon⟩ := map_eq_ok h
              cases hcon
            · rw [if_neg h4] at h
              by_cases h5 : uint16BE b = ErrorPacketOpcode
              · rw [if_pos h5] at h
                obtain ⟨a, -, hcon⟩ := map_eq_ok h
                cases hcon
              · rw [if_neg h5] at h
                cases h

/-- C8 witness: a concrete read request with two trailing bytes decodes to
the same packet as without them, by the trailing-bytes theorem. -/
theorem decode_request_ignores_trailing_witness :
    Decode ([0, 1, 97, 0, 98, 0] ++ [99, 100]) = .ok (.readRequest ⟨[97], [98]⟩) :=
  (decode_request_ignores_trailing [0, 1, 97, 0, 98, 0] [99, 100] ⟨[97], [98]⟩ ⟨[], []⟩).1 rfl

/-- C9: request encoding emits the opcode pair, the filename bytes, a
terminator, the mode bytes and a terminator, for every filename and mode;
in particular the ReadRequest for ./testfile with mode octet encodes to the
documented 19 bytes. -/
theorem request_encode_layout :
    (∀ f m : List Nat, ReadRequestPacket.Encode ⟨f, m⟩ =
       .ok ([0, 1] ++ f ++ [0] ++ m ++ [0])) ∧
    (∀ f m : List Nat, WriteRequestPacket.Encode ⟨f, m⟩ =
       .ok ([0, 2] ++ f ++ [0] ++ m ++ [0])) ∧
    ReadRequestPacket.Encode ⟨strB (r"./testfile"), strB (r"octet")⟩ =
      .ok [0x00, 0x01, 0x2E, 0x2F, 0x74, 0x65, 0x73, 0x74, 0x66, 0x69, 0x6C, 0x65,
           0x00, 0x6F, 0x63, 0x74, 0x65, 0x74, 0x00] := by
  refine ⟨fun f m => ?_, fun f m => ?_, rfl⟩
  · simp [ReadRequestPacket.Encode, ReadRequestPacketOpcode, bufWriteString, toBytes16]
  · simp [WriteRequestPacket.Encode, WriteRequestPacketOpcode, bufWriteString, toBytes16]

/-- C10: the encoders of the ReadRequest, WriteRequest, Data and Ack
variants always succeed — their defensive length-mismatch branches are
unreachable — so a Packet whose Encode can fail must be the Error variant. -/
theorem encode_total_except_error :
    (∀ w : WriteRequestPacket, isOk w.Encode = true) ∧
    (∀ rq : ReadRequestPacket, isOk rq.Encode = true) ∧
    (∀ d : DataPacket, isOk d.Encode = true) ∧
    (∀ a : AckPacket, isOk a.Encode = true) ∧
    (∀ p : Packet, isOk p.Encode = true ∨ ∃ e : ErrorPacket, p = Packet.error e) := by
  have hw : ∀ w : WriteRequestPacket, isOk w.Encode = true := by
    intro w
    simp [WriteRequestPacket.Encode, bufWriteString, isOk]
  have hr : ∀ rq : ReadRequestPacket, isOk rq.Encode = true := by
    intro rq
    simp [ReadRequestPacket.Encode, bufWriteString, isOk]
  have hd : ∀ d : DataPacket, isOk d.Encode = true := by
    intro d
    simp [DataPacket.Encode, bufWriteString, isOk]
  have ha : ∀ a : AckPacket, isOk a.Encode = true := by
    intro a
    simp [AckPacket.Encode, isOk]
  refine ⟨hw, hr, hd, ha, ?_⟩
  intro p
  cases p with
  | readRequest p => exact Or.inl (hr p)
  | writeRequest p => exact Or.inl (hw p)
  | data p => exact Or.inl (hd p)
  | ack p => exact Or.inl (ha p)
  | error e => exact Or.inr ⟨e, rfl⟩

end GoTftp
